import Mathlib

/-!
# A verification development for the `pagerduty` client package

The Go package `pagerduty` (file `pagerduty.go`) holds

* the client `PagerDuty` (sub-domain and access token),
* `GetScheduleUsers` and `GetUser`, which build a URL, build a request with
  `makeRequest`, perform it and decode the JSON body,
* the table `TimezoneMap`.

Go strings are modelled by Lean strings (sequences of Unicode characters, that
is, Go strings holding valid UTF-8).  The functions of the Go standard library
that the package calls (`url.Values`, `time.Time.Format`, `http.NewRequest`,
`json.Unmarshal`) are modelled next to the code that calls them; each model
names the library function it stands for.  The network (`http.Client.Do`,
`ioutil.ReadAll`) is a parameter of the two operations.
-/

namespace pagerduty

/-! ## Strings and `net/url` -/

/-- The table `upperhex` of `net/url`: the upper-case hexadecimal digit of `n < 16`. -/
def upperhex (n : Nat) : Char :=
  "0123456789ABCDEF".data.getD n '0'

/-- Functions `ishex` and `unhex` of `net/url`: the value of a hexadecimal
digit, `none` for any other character. -/
def hexDigit (c : Char) : Option Nat :=
  if '0' ≤ c ∧ c ≤ '9' then some (c.toNat - 48)
  else if 'a' ≤ c ∧ c ≤ 'f' then some (c.toNat - 87)
  else if 'A' ≤ c ∧ c ≤ 'F' then some (c.toNat - 55)
  else none

/-- Function `shouldEscape` of `net/url` in mode `encodeQueryComponent`: only the
ASCII letters and digits and the marks `-`, `_`, `.`, `~` are left as they are. -/
def shouldEscape (c : Char) : Bool :=
  if ('a' ≤ c ∧ c ≤ 'z') ∨ ('A' ≤ c ∧ c ≤ 'Z') ∨ ('0' ≤ c ∧ c ≤ '9') then false
  else if c = '-' ∨ c = '_' ∨ c = '.' ∨ c = '~' then false
  else true

/-- One byte `b` written as `%XX`, as in `escape` of `net/url`. -/
def escapeByte (b : Nat) : List Char :=
  ['%', upperhex (b / 16), upperhex (b % 16)]

/-- What `escape` of `net/url` (mode `encodeQueryComponent`) writes for one
character: a space becomes `+`, a character that needs no escape is copied, and
every byte of the UTF-8 form of any other character is written as `%XX`. -/
def escapeChar (c : Char) : List Char :=
  if c = ' ' then ['+']
  else if shouldEscape c then
    (String.utf8EncodeChar c).flatMap (fun b => escapeByte b.toNat)
  else [c]

/-- Function `url.QueryEscape`. -/
def QueryEscape (s : String) : String :=
  String.mk (s.data.flatMap escapeChar)

/-- Type `url.Values` (`map[string][]string`): the keys of the map with their
lists of values, each key once. -/
abbrev Values := List (String × List String)

/-- Method `url.Values.Add`: appends `value` to the values of `key`. -/
def Values.Add : Values → String → String → Values
  | [], key, value => [(key, [value])]
  | (k, vs) :: rest, key, value =>
    if k = key then (k, vs ++ [value]) :: rest
    else (k, vs) :: Values.Add rest key value

/-- Order of Go strings (byte-wise, which on valid UTF-8 is the order of the
code points), as used by `sort.Strings`. -/
def strLE (a b : String) : Bool :=
  decide (a.data ≤ b.data)

/-- Insertion of one entry into a list of entries sorted by key. -/
def insertByKey (e : String × List String) : Values → Values
  | [] => [e]
  | x :: rest => if strLE e.1 x.1 then e :: x :: rest else x :: insertByKey e rest

/-- The entries of a `url.Values` sorted by key (`sort.Strings(keys)` in `Encode`). -/
def sortByKey : Values → Values
  | [] => []
  | e :: rest => insertByKey e (sortByKey rest)

/-- The pairs `key=value` that `Encode` writes for one key, both escaped. -/
def encodePairs (e : String × List String) : List String :=
  e.2.map (fun v => QueryEscape e.1 ++ "=" ++ QueryEscape v)

/-- Method `url.Values.Encode`: the pairs `key=value` of all keys in sorted key
order, joined by `&`. -/
def Values.Encode (v : Values) : String :=
  String.intercalate "&" ((sortByKey v).flatMap encodePairs)

/-! ## `time.Time` and `Format(time.RFC3339)` -/

/-- A `time.Time` as far as `Format` reads it: the instant (`unixSec` seconds
since 1970-01-01T00:00:00Z and `nsec` nanoseconds within that second) and
`offset`, the seconds east of UTC that the time's `Location` gives at that
instant. -/
structure Time where
  unixSec : Int
  nsec : Nat
  offset : Int
  deriving DecidableEq, Repr

/-- Constant `secondsPerDay` of package `time`. -/
def secondsPerDay : Nat := 86400

/-- Constant `daysPer400Years` of package `time`. -/
def daysPer400Years : Nat := 365 * 400 + 97

/-- Constant `daysPer100Years` of package `time`. -/
def daysPer100Years : Nat := 365 * 100 + 24

/-- Constant `daysPer4Years` of package `time`. -/
def daysPer4Years : Nat := 365 * 4 + 1

/-- Constant `absoluteZeroYear` of package `time`. -/
def absoluteZeroYear : Int := -292277022399

/-- The sum `unixToInternal + internalToAbsolute` of package `time`: the seconds
from the absolute epoch (1 January of `absoluteZeroYear`) to the Unix epoch. -/
def unixToAbsolute : Int := 62135596800 + 9223371966579724800

/-- Method `Time.abs`: the seconds since the absolute epoch of the local time,
a `uint64`. -/
def Time.abs (t : Time) : Nat :=
  ((t.unixSec + t.offset + unixToAbsolute) % (2 ^ 64 : Int)).toNat

/-- Function `isLeap` of package `time`. -/
def isLeap (year : Int) : Bool :=
  year % 4 = 0 ∧ (year % 100 ≠ 0 ∨ year % 400 = 0)

/-- Table `daysBefore` of package `time`: the days of a non-leap year before
month `m + 1` starts. -/
def daysBefore (m : Nat) : Nat :=
  [0, 31, 59, 90, 120, 151, 181, 212, 243, 273, 304, 334, 365].getD m 365

/-- The year and the day within the year (from 0) of `absDate`: the 400-year,
100-year, 4-year and 1-year cycles are cut off in turn. -/
def absYearDay (abs : Nat) : Int × Nat :=
  let d := abs / secondsPerDay
  let n := d / daysPer400Years
  let y := 400 * n
  let d := d - daysPer400Years * n
  let n := d / daysPer100Years
  let n := n - n / 4
  let y := y + 100 * n
  let d := d - daysPer100Years * n
  let n := d / daysPer4Years
  let y := y + 4 * n
  let d := d - daysPer4Years * n
  let n := d / 365
  let n := n - n / 4
  let y := y + n
  let d := d - 365 * n
  ((y : Int) + absoluteZeroYear, d)

/-- The second half of `absDate`: the month (1 to 12) and the day of the month
(from 1) of day `yday` (from 0) of a year that is a leap year or not.  A leap
day is answered at once and the days after it are moved one back; the month is
estimated as if every month had 31 days and corrected by table `daysBefore`. -/
def monthDay (leap : Bool) (yday : Nat) : Nat × Nat :=
  if leap ∧ yday = 31 + 29 - 1 then (2, 29)
  else
    let day := if leap ∧ yday > 31 + 29 - 1 then yday - 1 else yday
    let month := day / 31
    let e := daysBefore (month + 1)
    if day ≥ e then (month + 2, day - e + 1)
    else (month + 1, day - daysBefore month + 1)

/-- Function `absDate` of package `time` (with `full` set): year, month (1 to
12) and day of the month (from 1). -/
def absDate (abs : Nat) : Int × Nat × Nat :=
  let year := (absYearDay abs).1
  let yday := (absYearDay abs).2
  (year, (monthDay (isLeap year) yday).1, (monthDay (isLeap year) yday).2)

/-- Function `absClock` of package `time`: hour, minute and second of the day. -/
def absClock (abs : Nat) : Nat × Nat × Nat :=
  let sec := abs % secondsPerDay
  let hour := sec / 3600
  let sec := sec - hour * 3600
  let min := sec / 60
  let sec := sec - min * 60
  (hour, min, sec)

/-- The decimal digit `d < 10` as a character. -/
def digitChar (d : Nat) : Char :=
  Char.ofNat (48 + d)

/-- Function `appendInt` of package `time`: `x` in decimal, with a sign when
negative, padded with zeros to at least `width` digits. -/
def appendInt (x : Int) (width : Nat) : List Char :=
  let u := x.natAbs
  (if x < 0 then ['-'] else []) ++
    (if width = 2 ∧ u < 100 then [digitChar (u / 10), digitChar (u % 10)]
     else if width = 4 ∧ u < 10000 then
       [digitChar (u / 1000), digitChar (u / 100 % 10), digitChar (u / 10 % 10),
        digitChar (u % 10)]
     else
       let ds := Nat.toDigits 10 u
       List.replicate (width - ds.length) '0' ++ ds)

/-- The zone of layout element `Z07:00` as `Format` writes it: `Z` for offset
0, otherwise the sign and the hours and minutes of the offset; the division by
60 truncates toward zero and drops the seconds of the offset. -/
def formatZone (offset : Int) : List Char :=
  if offset = 0 then ['Z']
  else
    let zone := offset.tdiv 60
    (if zone < 0 then ['-'] else ['+']) ++
      appendInt (zone.natAbs / 60 : Nat) 2 ++ [':'] ++ appendInt (zone.natAbs % 60 : Nat) 2

/-- Method `Time.Format` with the layout `time.RFC3339`
(`2006-01-02T15:04:05Z07:00`). -/
def Time.FormatRFC3339 (t : Time) : String :=
  let date := absDate t.abs
  let clock := absClock t.abs
  String.mk (appendInt date.1 4 ++ ['-'] ++ appendInt date.2.1 2 ++ ['-'] ++
    appendInt date.2.2 2 ++ ['T'] ++ appendInt clock.1 2 ++ [':'] ++
    appendInt clock.2.1 2 ++ [':'] ++ appendInt clock.2.2 2 ++ formatZone t.offset)

/-! ## Reading RFC 3339

The round trip of the specification needs the inverse of `Format(time.RFC3339)`:
the reading of a date-time of RFC 3339 (section 5.6).  It is not part of the
package; it is written here from the grammar and the calendar alone. -/

/-- The value of a decimal digit, `none` for any other character. -/
def digitOf (c : Char) : Option Nat :=
  if '0' ≤ c ∧ c ≤ '9' then some (c.toNat - 48) else none

/-- The value of two decimal digits. -/
def twoDigits (a b : Char) : Option Nat :=
  match digitOf a, digitOf b with
  | some x, some y => some (10 * x + y)
  | _, _ => none

/-- Whether year `y` of the Gregorian calendar is a leap year. -/
def leapYear (y : Nat) : Bool :=
  y % 4 = 0 ∧ (y % 100 ≠ 0 ∨ y % 400 = 0)

/-- The number of days of month `m` (1 to 12) of a year that is a leap year or
not. -/
def daysInMonth (leap : Bool) (m : Nat) : Nat :=
  if m = 2 then (if leap then 29 else 28)
  else if m = 4 ∨ m = 6 ∨ m = 9 ∨ m = 11 then 30
  else 31

/-- The days from 1 January of year 0 to 1 January of year `y`: 365 a year and
one more for every leap year before `y`. -/
def daysBeforeYear (y : Nat) : Nat :=
  365 * y + (y + 3) / 4 - (y + 99) / 100 + (y + 399) / 400

/-- The days from 1970-01-01 to the day `d` of month `m` of year `y` (negative
before 1970); 1970-01-01 is day 719528 from 1 January of year 0. -/
def daysFromCivil (y m d : Nat) : Int :=
  (daysBeforeYear y : Int) +
    (((List.range (m - 1)).map (fun k => daysInMonth (leapYear y) (k + 1))).sum : Nat) +
    ((d : Int) - 1) - 719528

/-- The optional fraction of a second of an RFC 3339 time (`time-secfrac`): the
nanoseconds it denotes (digits after the ninth are dropped) and the rest. -/
def parseFraction (cs : List Char) : Option (Nat × List Char) :=
  match cs with
  | '.' :: rest =>
    let ds := rest.takeWhile (fun c => '0' ≤ c ∧ c ≤ '9')
    if ds = [] then none
    else
      some (((ds ++ List.replicate 9 '0').take 9).foldl (fun n c => 10 * n + (c.toNat - 48)) 0,
        rest.dropWhile (fun c => '0' ≤ c ∧ c ≤ '9'))
  | _ => some (0, cs)

/-- The zone of an RFC 3339 time (`time-offset`): `Z`, or a sign with hours and
minutes; the seconds east of UTC. -/
def parseZone (cs : List Char) : Option Int :=
  match cs with
  | [z] => if z = 'Z' ∨ z = 'z' then some 0 else none
  | [s, h1, h2, ':', m1, m2] =>
    match twoDigits h1 h2, twoDigits m1 m2 with
    | some hh, some mm =>
      if hh ≤ 23 ∧ mm ≤ 59 then
        if s = '+' then some ((hh * 3600 + mm * 60 : Nat) : Int)
        else if s = '-' then some (-((hh * 3600 + mm * 60 : Nat) : Int))
        else none
      else none
    | _, _ => none
  | _ => none

/-- The instant and zone offset that an RFC 3339 date-time denotes
(`full-date "T" full-time`), `none` for a text that is no such date-time. -/
def parseRFC3339 (s : String) : Option Time :=
  match s.data with
  | y1 :: y2 :: y3 :: y4 :: '-' :: mo1 :: mo2 :: '-' :: d1 :: d2 :: sep :: h1 :: h2 :: ':' ::
      mi1 :: mi2 :: ':' :: s1 :: s2 :: rest =>
    if sep = 'T' ∨ sep = 't' then
      match twoDigits y1 y2, twoDigits y3 y4, twoDigits mo1 mo2, twoDigits d1 d2 with
      | some ya, some yb, some mo, some d =>
        match twoDigits h1 h2, twoDigits mi1 mi2, twoDigits s1 s2, parseFraction rest with
        | some h, some mi, some sec, some (ns, rest1) =>
          match parseZone rest1 with
          | some off =>
            if 1 ≤ mo ∧ mo ≤ 12 ∧ 1 ≤ d ∧ d ≤ daysInMonth (leapYear (100 * ya + yb)) mo ∧
                h ≤ 23 ∧ mi ≤ 59 ∧ sec ≤ 59 then
              some { unixSec := daysFromCivil (100 * ya + yb) mo d * 86400 +
                       ((h * 3600 + mi * 60 + sec : Nat) : Int) - off,
                     nsec := ns, offset := off }
            else none
          | none => none
        | _, _, _, _ => none
      | _, _, _, _ => none
    else none
  | _ => none

/-! ## The client and the URLs of its two operations -/

/-- Struct `PagerDuty`: the client. -/
structure PagerDuty where
  SubDomain : String
  Token : String
  deriving DecidableEq, Repr

/-- Struct `GetScheduleUsersInput`; a nil `*time.Time` is `none`. -/
structure GetScheduleUsersInput where
  ScheduleID : String
  Since : Option Time
  Until : Option Time
  deriving DecidableEq, Repr

/-- The `url.Values` that `GetScheduleUsers` fills (lines 67 to 73). -/
def scheduleUsersValues (i : GetScheduleUsersInput) : Values :=
  let v : Values := []
  let v := match i.Since with
    | some t => v.Add "since" t.FormatRFC3339
    | none => v
  match i.Until with
  | some t => v.Add "until" t.FormatRFC3339
  | none => v

/-- The `urlString` of `GetScheduleUsers` (line 74). -/
def scheduleUsersURL (p : PagerDuty) (i : GetScheduleUsersInput) : String :=
  "https://" ++ p.SubDomain ++ "/api/v1/schedules/" ++ i.ScheduleID ++ "/users?" ++
    (scheduleUsersValues i).Encode

/-- The `url.Values` that `GetUser` fills (lines 103 and 104). -/
def userValues : Values :=
  Values.Add [] "include[]" "contact_methods"

/-- The `urlString` of `GetUser` (line 106). -/
def userURL (p : PagerDuty) (id : String) : String :=
  "https://" ++ p.SubDomain ++ "/api/v1/users/" ++ id ++ "?" ++ userValues.Encode

/-- The raw query of a URL string as `url.Parse` splits it off: the text after
the first `?` of the part before the first `#`. -/
def rawQuery (url : String) : String :=
  String.mk (((url.data.takeWhile (fun c => c ≠ '#')).dropWhile (fun c => c ≠ '?')).drop 1)

/-- The bytes of a Go string: the UTF-8 form of its characters. -/
def utf8Bytes (s : String) : List Nat :=
  s.data.flatMap (fun c => (String.utf8EncodeChar c).map (fun b => b.toNat))

/-- Function `unescape` of `net/url` (mode `encodeQueryComponent`) on the
characters of a string: the bytes of the result, `%XX` read as one byte and `+`
as a space; `none` when a `%` is not followed by two hexadecimal digits. -/
def unescapeBytes : List Char → Option (List Nat)
  | [] => some []
  | '%' :: a :: b :: rest =>
    match hexDigit a, hexDigit b, unescapeBytes rest with
    | some x, some y, some r => some ((x * 16 + y) :: r)
    | _, _, _ => none
  | '+' :: rest => (unescapeBytes rest).map (fun r => 32 :: r)
  | c :: rest =>
    if c = '%' then none
    else (unescapeBytes rest).map (fun r => (String.utf8EncodeChar c).map (fun b => b.toNat) ++ r)

/-- Function `url.QueryUnescape`: the bytes of the string it returns, `none` for
an `EscapeError`. -/
def QueryUnescape (s : String) : Option (List Nat) :=
  unescapeBytes s.data

/-! ## `net/http`: requests -/

/-- The errors the two operations can return, by origin. -/
inductive Error where
  | invalidMethod (method : String)
  | url (msg : String)
  | transport (msg : String)
  | read (msg : String)
  | syntaxError
  | unmarshalType
  deriving DecidableEq, Repr

/-- Function `httpguts.IsTokenRune` (also `validHeaderFieldByte` of
`net/textproto`): the characters of an HTTP token, that is, the ASCII letters and
digits and the marks listed. -/
def isTokenChar (c : Char) : Bool :=
  ('a' ≤ c ∧ c ≤ 'z') ∨ ('A' ≤ c ∧ c ≤ 'Z') ∨ ('0' ≤ c ∧ c ≤ '9') ∨
    c ∈ ['!', '#', '$', '%', '&', '\x27', '*', '+', '-', '.', '^', '_', '\x60', '|', '~']

/-- Function `validMethod` of `net/http`: a non-empty token. -/
def validMethod (method : String) : Bool :=
  method.data ≠ [] ∧ method.data.all isTokenChar

/-- The loop of `canonicalMIMEHeaderKey`: the first letter and every letter
after a `-` in upper case, the other letters in lower case. -/
def canonicalLoop : Bool → List Char → List Char
  | _, [] => []
  | upper, c :: rest =>
    let c1 :=
      if upper ∧ 'a' ≤ c ∧ c ≤ 'z' then Char.ofNat (c.toNat - 32)
      else if ¬ upper ∧ 'A' ≤ c ∧ c ≤ 'Z' then Char.ofNat (c.toNat + 32)
      else c
    c1 :: canonicalLoop (c1 = '-') rest

/-- Function `textproto.CanonicalMIMEHeaderKey`: a key that holds a character
that is no header field byte is returned unchanged. -/
def CanonicalMIMEHeaderKey (s : String) : String :=
  if s.data.all isTokenChar then String.mk (canonicalLoop true s.data) else s

/-- Type `http.Header` (`map[string][]string`). -/
abbrev Header := Values

/-- Method `http.Header.Add`: appends `value` under the canonical form of `key`. -/
def Header.Add (h : Header) (key value : String) : Header :=
  Values.Add h (CanonicalMIMEHeaderKey key) value

/-- An `http.Request` as far as `http.NewRequest` and `makeRequest` fill it:
the method, the parsed URL (of a type `U` left to the URL parser) and the
headers. -/
structure Request (U : Type) where
  Method : String
  URL : U
  Header : Header

/-- Function `http.NewRequest` with a nil body: an empty method means `GET`,
the method must be a token, and the URL string must parse.  `parseURL` stands
for `url.Parse` (followed by the removal of an empty port from the host). -/
def NewRequest {U : Type} (parseURL : String → Except String U) (method urlString : String) :
    Except Error (Request U) :=
  let method := if method = "" then "GET" else method
  if ¬ validMethod method then .error (.invalidMethod method)
  else
    match parseURL urlString with
    | .error msg => .error (.url msg)
    | .ok u => .ok { Method := method, URL := u, Header := [] }

/-- Method `makeRequest` (lines 133 to 141). -/
def makeRequest {U : Type} (parseURL : String → Except String U) (p : PagerDuty)
    (method urlString : String) : Except Error (Request U) :=
  match NewRequest parseURL method urlString with
  | .error err => .error err
  | .ok req =>
    let req := { req with Header := Header.Add req.Header "Content-type" "application/json" }
    let req := { req with Header := Header.Add req.Header "Authorization" ("Token token=" ++ p.Token) }
    .ok req

/-! ## The table `TimezoneMap` -/

/-- Variable `TimezoneMap` (lines 144 to 294): the entries of the map literal in
source order; the keys of a Go map literal are distinct. -/
def TimezoneMap : List (String × String) :=
  [("International Date Line West", "Pacific/Midway"),
   ("Midway Island", "Pacific/Midway"),
   ("American Samoa", "Pacific/Pago_Pago"),
   ("Hawaii", "Pacific/Honolulu"),
   ("Alaska", "America/Juneau"),
   ("Pacific Time (US & Canada)", "America/Los_Angeles"),
   ("Tijuana", "America/Tijuana"),
   ("Mountain Time (US & Canada)", "America/Denver"),
   ("Arizona", "America/Phoenix"),
   ("Chihuahua", "America/Chihuahua"),
   ("Mazatlan", "America/Mazatlan"),
   ("Central Time (US & Canada)", "America/Chicago"),
   ("Saskatchewan", "America/Regina"),
   ("Guadalajara", "America/Mexico_City"),
   ("Mexico City", "America/Mexico_City"),
   ("Monterrey", "America/Monterrey"),
   ("Central America", "America/Guatemala"),
   ("Eastern Time (US & Canada)", "America/New_York"),
   ("Indiana (East)", "America/Indiana/Indianapolis"),
   ("Bogota", "America/Bogota"),
   ("Lima", "America/Lima"),
   ("Quito", "America/Lima"),
   ("Atlantic Time (Canada)", "America/Halifax"),
   ("Caracas", "America/Caracas"),
   ("La Paz", "America/La_Paz"),
   ("Santiago", "America/Santiago"),
   ("Newfoundland", "America/St_Johns"),
   ("Brasilia", "America/Sao_Paulo"),
   ("Buenos Aires", "America/Argentina/Buenos_Aires"),
   ("Montevideo", "America/Montevideo"),
   ("Georgetown", "America/Guyana"),
   ("Greenland", "America/Godthab"),
   ("Mid-Atlantic", "Atlantic/South_Georgia"),
   ("Azores", "Atlantic/Azores"),
   ("Cape Verde Is.", "Atlantic/Cape_Verde"),
   ("Dublin", "Europe/Dublin"),
   ("Edinburgh", "Europe/London"),
   ("Lisbon", "Europe/Lisbon"),
   ("London", "Europe/London"),
   ("Casablanca", "Africa/Casablanca"),
   ("Monrovia", "Africa/Monrovia"),
   ("UTC", "Etc/UTC"),
   ("Belgrade", "Europe/Belgrade"),
   ("Bratislava", "Europe/Bratislava"),
   ("Budapest", "Europe/Budapest"),
   ("Ljubljana", "Europe/Ljubljana"),
   ("Prague", "Europe/Prague"),
   ("Sarajevo", "Europe/Sarajevo"),
   ("Skopje", "Europe/Skopje"),
   ("Warsaw", "Europe/Warsaw"),
   ("Zagreb", "Europe/Zagreb"),
   ("Brussels", "Europe/Brussels"),
   ("Copenhagen", "Europe/Copenhagen"),
   ("Madrid", "Europe/Madrid"),
   ("Paris", "Europe/Paris"),
   ("Amsterdam", "Europe/Amsterdam"),
   ("Berlin", "Europe/Berlin"),
   ("Bern", "Europe/Berlin"),
   ("Rome", "Europe/Rome"),
   ("Stockholm", "Europe/Stockholm"),
   ("Vienna", "Europe/Vienna"),
   ("West Central Africa", "Africa/Algiers"),
   ("Bucharest", "Europe/Bucharest"),
   ("Cairo", "Africa/Cairo"),
   ("Helsinki", "Europe/Helsinki"),
   ("Kyiv", "Europe/Kiev"),
   ("Riga", "Europe/Riga"),
   ("Sofia", "Europe/Sofia"),
   ("Tallinn", "Europe/Tallinn"),
   ("Vilnius", "Europe/Vilnius"),
   ("Athens", "Europe/Athens"),
   ("Istanbul", "Europe/Istanbul"),
   ("Minsk", "Europe/Minsk"),
   ("Jerusalem", "Asia/Jerusalem"),
   ("Harare", "Africa/Harare"),
   ("Pretoria", "Africa/Johannesburg"),
   ("Kaliningrad", "Europe/Kaliningrad"),
   ("Moscow", "Europe/Moscow"),
   ("St. Petersburg", "Europe/Moscow"),
   ("Volgograd", "Europe/Volgograd"),
   ("Samara", "Europe/Samara"),
   ("Kuwait", "Asia/Kuwait"),
   ("Riyadh", "Asia/Riyadh"),
   ("Nairobi", "Africa/Nairobi"),
   ("Baghdad", "Asia/Baghdad"),
   ("Tehran", "Asia/Tehran"),
   ("Abu Dhabi", "Asia/Muscat"),
   ("Muscat", "Asia/Muscat"),
   ("Baku", "Asia/Baku"),
   ("Tbilisi", "Asia/Tbilisi"),
   ("Yerevan", "Asia/Yerevan"),
   ("Kabul", "Asia/Kabul"),
   ("Ekaterinburg", "Asia/Yekaterinburg"),
   ("Islamabad", "Asia/Karachi"),
   ("Karachi", "Asia/Karachi"),
   ("Tashkent", "Asia/Tashkent"),
   ("Chennai", "Asia/Kolkata"),
   ("Kolkata", "Asia/Kolkata"),
   ("Mumbai", "Asia/Kolkata"),
   ("New Delhi", "Asia/Kolkata"),
   ("Kathmandu", "Asia/Kathmandu"),
   ("Astana", "Asia/Dhaka"),
   ("Dhaka", "Asia/Dhaka"),
   ("Sri Jayawardenepura", "Asia/Colombo"),
   ("Almaty", "Asia/Almaty"),
   ("Novosibirsk", "Asia/Novosibirsk"),
   ("Rangoon", "Asia/Rangoon"),
   ("Bangkok", "Asia/Bangkok"),
   ("Hanoi", "Asia/Bangkok"),
   ("Jakarta", "Asia/Jakarta"),
   ("Krasnoyarsk", "Asia/Krasnoyarsk"),
   ("Beijing", "Asia/Shanghai"),
   ("Chongqing", "Asia/Chongqing"),
   ("Hong Kong", "Asia/Hong_Kong"),
   ("Urumqi", "Asia/Urumqi"),
   ("Kuala Lumpur", "Asia/Kuala_Lumpur"),
   ("Singapore", "Asia/Singapore"),
   ("Taipei", "Asia/Taipei"),
   ("Perth", "Australia/Perth"),
   ("Irkutsk", "Asia/Irkutsk"),
   ("Ulaanbaatar", "Asia/Ulaanbaatar"),
   ("Seoul", "Asia/Seoul"),
   ("Osaka", "Asia/Tokyo"),
   ("Sapporo", "Asia/Tokyo"),
   ("Tokyo", "Asia/Tokyo"),
   ("Yakutsk", "Asia/Yakutsk"),
   ("Darwin", "Australia/Darwin"),
   ("Adelaide", "Australia/Adelaide"),
   ("Canberra", "Australia/Melbourne"),
   ("Melbourne", "Australia/Melbourne"),
   ("Sydney", "Australia/Sydney"),
   ("Brisbane", "Australia/Brisbane"),
   ("Hobart", "Australia/Hobart"),
   ("Vladivostok", "Asia/Vladivostok"),
   ("Guam", "Pacific/Guam"),
   ("Port Moresby", "Pacific/Port_Moresby"),
   ("Magadan", "Asia/Magadan"),
   ("Srednekolymsk", "Asia/Srednekolymsk"),
   ("Solomon Is.", "Pacific/Guadalcanal"),
   ("New Caledonia", "Pacific/Noumea"),
   ("Fiji", "Pacific/Fiji"),
   ("Kamchatka", "Asia/Kamchatka"),
   ("Marshall Is.", "Pacific/Majuro"),
   ("Auckland", "Pacific/Auckland"),
   ("Wellington", "Pacific/Auckland"),
   ("Nuku\x27alofa", "Pacific/Tongatapu"),
   ("Tokelau Is.", "Pacific/Fakaofo"),
   ("Chatham Is.", "Pacific/Chatham"),
   ("Samoa", "Pacific/Apia")]

/-- The index expression `v, ok := TimezoneMap[s]`: `some v` when `s` is a key
(`ok` true), `none` otherwise (`ok` false). -/
def TimezoneMap.get (s : String) : Option String :=
  (TimezoneMap.find? (fun e => e.1 = s)).map (fun e => e.2)

/-! ## `encoding/json`: syntax -/

/-- A JSON value: what a valid JSON text denotes.  A number keeps its literal,
an object keeps its members in the order of the text, repeated names included. -/
inductive Json where
  | null
  | bool (b : Bool)
  | number (lit : String)
  | string (s : String)
  | array (elems : List Json)
  | object (members : List (String × Json))

/-- Function `isSpace` of the scanner of `encoding/json`. -/
def isSpace (c : Char) : Bool :=
  c = ' ' ∨ c = '\t' ∨ c = '\r' ∨ c = '\n'

/-- The input without its leading white space. -/
def skipSpace (cs : List Char) : List Char :=
  cs.dropWhile isSpace

/-- The value of a hexadecimal digit. -/
def hexVal (c : Char) : Option Nat :=
  if '0' ≤ c ∧ c ≤ '9' then some (c.toNat - 48)
  else if 'a' ≤ c ∧ c ≤ 'f' then some (c.toNat - 87)
  else if 'A' ≤ c ∧ c ≤ 'F' then some (c.toNat - 55)
  else none

/-- Function `getu4` of `encoding/json`: the number of a leading `\uXXXX`. -/
def getu4 : List Char → Option Nat
  | '\\' :: 'u' :: a :: b :: c :: d :: _ =>
    match hexVal a, hexVal b, hexVal c, hexVal d with
    | some a, some b, some c, some d => some (((a * 16 + b) * 16 + c) * 16 + d)
    | _, _, _, _ => none
  | _ => none

/-- The character of a one-letter escape of a JSON string. -/
def simpleEscape (c : Char) : Option Char :=
  if c = '"' ∨ c = '\\' ∨ c = '/' then some c
  else if c = 'b' then some (Char.ofNat 8)
  else if c = 'f' then some (Char.ofNat 12)
  else if c = 'n' then some '\n'
  else if c = 'r' then some '\r'
  else if c = 't' then some '\t'
  else none

/-- The rest of a JSON string after its opening quote, as the scanner accepts
it and `unquote` reads it: the characters up to the closing quote with the
escapes replaced, and the input after the closing quote.  A control character
or an unknown escape is a syntax error; a `\u` escape that is half of a
surrogate pair without its other half reads as U+FFFD. -/
def unquoteLoop : Nat → List Char → List Char → Option (String × List Char)
  | 0, _, _ => none
  | fuel + 1, cs, acc =>
    match cs with
    | [] => none
    | '"' :: rest => some (String.mk acc.reverse, rest)
    | '\\' :: 'u' :: _ =>
      match getu4 cs with
      | none => none
      | some rr =>
        let rest := cs.drop 6
        if 0xd800 ≤ rr ∧ rr < 0xe000 then
          match getu4 rest with
          | some rr1 =>
            if rr < 0xdc00 ∧ 0xdc00 ≤ rr1 ∧ rr1 < 0xe000 then
              unquoteLoop fuel (rest.drop 6)
                (Char.ofNat ((rr - 0xd800) * 1024 + (rr1 - 0xdc00) + 0x10000) :: acc)
            else unquoteLoop fuel rest (Char.ofNat 0xfffd :: acc)
          | none => unquoteLoop fuel rest (Char.ofNat 0xfffd :: acc)
        else unquoteLoop fuel rest (Char.ofNat rr :: acc)
    | '\\' :: c :: rest =>
      match simpleEscape c with
      | some e => unquoteLoop fuel rest (e :: acc)
      | none => none
    | c :: rest => if c = '\\' ∨ c.toNat < 0x20 then none else unquoteLoop fuel rest (c :: acc)

/-- A JSON string: the opening quote, then `unquoteLoop`. -/
def parseString (cs : List Char) : Option (String × List Char) :=
  match cs with
  | '"' :: rest => unquoteLoop (rest.length + 1) rest []
  | _ => none

/-- The leading decimal digits of the input, and the input after them. -/
def spanDigits (cs : List Char) : List Char × List Char :=
  cs.span (fun c => '0' ≤ c ∧ c ≤ '9')

/-- The integer part of a JSON number: `0`, or a digit from 1 to 9 and then
digits. -/
def scanInt (cs : List Char) : Option (List Char × List Char) :=
  match cs with
  | '0' :: rest => some (['0'], rest)
  | c :: rest =>
    if '1' ≤ c ∧ c ≤ '9' then some (c :: (spanDigits rest).1, (spanDigits rest).2) else none
  | [] => none

/-- The optional fraction of a JSON number: a point and at least one digit. -/
def scanFrac (cs : List Char) : Option (List Char × List Char) :=
  match cs with
  | '.' :: rest =>
    if (spanDigits rest).1 = [] then none
    else some ('.' :: (spanDigits rest).1, (spanDigits rest).2)
  | _ => some ([], cs)

/-- The optional exponent of a JSON number: `e` or `E`, an optional sign and at
least one digit. -/
def scanExp (cs : List Char) : Option (List Char × List Char) :=
  match cs with
  | e :: rest =>
    if e = 'e' ∨ e = 'E' then
      let sign := match rest with
        | s :: rest1 => if s = '+' ∨ s = '-' then ([s], rest1) else ([], rest)
        | [] => ([], rest)
      if (spanDigits sign.2).1 = [] then none
      else some (e :: sign.1 ++ (spanDigits sign.2).1, (spanDigits sign.2).2)
    else some ([], cs)
  | [] => some ([], cs)

/-- A JSON number as the scanner accepts it: its literal and the input after it. -/
def parseNumber (cs : List Char) : Option (String × List Char) :=
  let sign := match cs with
    | '-' :: rest => (['-'], rest)
    | _ => ([], cs)
  match scanInt sign.2 with
  | none => none
  | some (i, r1) =>
    match scanFrac r1 with
    | none => none
    | some (f, r2) =>
      match scanExp r2 with
      | none => none
      | some (e, r3) => some (String.mk (sign.1 ++ i ++ f ++ e), r3)

mutual
/-- A JSON value at the head of the input (after white space), and the input
after it. -/
def parseValue : Nat → List Char → Option (Json × List Char)
  | 0, _ => none
  | fuel + 1, cs =>
    match skipSpace cs with
    | '{' :: rest =>
      match skipSpace rest with
      | '}' :: rest1 => some (.object [], rest1)
      | _ => parseMembers fuel rest []
    | '[' :: rest =>
      match skipSpace rest with
      | ']' :: rest1 => some (.array [], rest1)
      | _ => parseElems fuel rest []
    | '"' :: rest =>
      match parseString ('"' :: rest) with
      | some (s, rest1) => some (.string s, rest1)
      | none => none
    | 't' :: 'r' :: 'u' :: 'e' :: rest => some (.bool true, rest)
    | 'f' :: 'a' :: 'l' :: 's' :: 'e' :: rest => some (.bool false, rest)
    | 'n' :: 'u' :: 'l' :: 'l' :: rest => some (.null, rest)
    | c :: rest =>
      match parseNumber (c :: rest) with
      | some (lit, rest1) => some (.number lit, rest1)
      | none => none
    | [] => none
/-- The elements of an array after `[` or a comma: a value, then a comma and
more elements, or `]`. -/
def parseElems : Nat → List Char → List Json → Option (Json × List Char)
  | 0, _, _ => none
  | fuel + 1, cs, acc =>
    match parseValue fuel cs with
    | none => none
    | some (v, rest) =>
      match skipSpace rest with
      | ',' :: rest1 => parseElems fuel rest1 (v :: acc)
      | ']' :: rest1 => some (.array (v :: acc).reverse, rest1)
      | _ => none
/-- The members of an object after `{` or a comma: a string, a colon and a
value, then a comma and more members, or `}`. -/
def parseMembers : Nat → List Char → List (String × Json) → Option (Json × List Char)
  | 0, _, _ => none
  | fuel + 1, cs, acc =>
    match parseString (skipSpace cs) with
    | none => none
    | some (k, rest) =>
      match skipSpace rest with
      | ':' :: rest1 =>
        match parseValue fuel rest1 with
        | none => none
        | some (v, rest2) =>
          match skipSpace rest2 with
          | ',' :: rest3 => parseMembers fuel rest3 ((k, v) :: acc)
          | '}' :: rest3 => some (.object ((k, v) :: acc).reverse, rest3)
          | _ => none
      | _ => none
end

/-- Function `checkValid` of `encoding/json` together with the reading of the
value: `some` value when the whole text is one JSON value between optional white
space, `none` when it is not valid JSON. -/
def parseJSON (data : String) : Option Json :=
  match parseValue (2 * data.length + 2) data.data with
  | some (v, rest) => if skipSpace rest = [] then some v else none
  | none => none

/-! ## `encoding/json`: decoding into the types of the package -/

/-- A Go slice as the decoder sees it: the backing array from the first element
of the slice on (its length is the capacity) and the length of the slice.  A nil
slice and an empty slice of capacity 0 are not told apart. -/
structure Slice (α : Type) where
  backing : List α
  len : Nat
  deriving DecidableEq, Repr

/-- The nil slice. -/
def Slice.nil {α : Type} : Slice α :=
  { backing := [], len := 0 }

/-- Struct `ContactMethod`; field `Type` is written `Type_`. -/
structure ContactMethod where
  ID : String
  Label : String
  Address : String
  Type_ : String
  CountryCode : Int
  PhoneNumber : String
  deriving DecidableEq, Repr

/-- Struct `User`. -/
structure User where
  ID : String
  Name : String
  Email : String
  TimeZone : String
  Color : String
  Role : String
  AvatarURL : String
  UserURL : String
  InvitationSent : Bool
  ContactMethods : Slice ContactMethod
  deriving DecidableEq, Repr

/-- Struct `GetScheduleUsersOutput`. -/
structure GetScheduleUsersOutput where
  Users : Slice User
  deriving DecidableEq, Repr

/-- Struct `GetUserOutput`. -/
structure GetUserOutput where
  User : User
  deriving DecidableEq, Repr

/-- The zero value of `ContactMethod`. -/
def ContactMethod.zero : ContactMethod :=
  { ID := "", Label := "", Address := "", Type_ := "", CountryCode := 0, PhoneNumber := "" }

/-- The zero value of `User`. -/
def User.zero : User :=
  { ID := "", Name := "", Email := "", TimeZone := "", Color := "", Role := "", AvatarURL := "",
    UserURL := "", InvitationSent := false, ContactMethods := Slice.nil }

/-- The zero value of `GetScheduleUsersOutput` (`var out GetScheduleUsersOutput`). -/
def GetScheduleUsersOutput.zero : GetScheduleUsersOutput :=
  { Users := Slice.nil }

/-- The zero value of `GetUserOutput` (`var out GetUserOutput`). -/
def GetUserOutput.zero : GetUserOutput :=
  { User := User.zero }

/-- The `json` tags of struct `ContactMethod`, in field order. -/
def contactMethodNames : List String :=
  ["id", "label", "address", "type", "country_code", "phone_number"]

/-- The `json` tags of struct `User`, in field order. -/
def userNames : List String :=
  ["id", "name", "email", "time_zone", "color", "role", "avatar_url", "user_url",
   "invitation_sent", "contact_methods"]

/-- The ASCII character that Unicode simple case folding relates `c` to, in
lower case: the upper-case ASCII letters, the Kelvin sign (U+212A, folds to `k`)
and the long s (U+017F, folds to `s`); any other character is left as it is. -/
def foldChar (c : Char) : Char :=
  if 'A' ≤ c ∧ c ≤ 'Z' then Char.ofNat (c.toNat + 32)
  else if c = Char.ofNat 0x212a then 'k'
  else if c = Char.ofNat 0x17f then 's'
  else c

/-- The case-insensitive comparison by which `encoding/json` lets a member name
select a field (`bytes.EqualFold` and its specializations): it agrees with
Unicode simple folding whenever one side is ASCII, as every tag here is. -/
def equalFold (a b : String) : Bool :=
  a.data.map foldChar = b.data.map foldChar

/-- The field that the member name `key` selects among the tags `names`: the one
with exactly that name, else the first whose name equals it under case folding. -/
def findField (names : List String) (key : String) : Option Nat :=
  match names.findIdx? (fun n => n = key) with
  | some i => some i
  | none => names.findIdx? (fun n => equalFold n key)

/-- Decoding into a `string` field (`literalStore`): a JSON string is stored,
`null` leaves the field as it is, any other value is an `UnmarshalTypeError`.
The flag is false when such an error was saved. -/
def storeString (cur : String) (v : Json) : String × Bool :=
  match v with
  | .null => (cur, true)
  | .string s => (s, true)
  | _ => (cur, false)

/-- Decoding into a `bool` field (`literalStore`). -/
def storeBool (cur : Bool) (v : Json) : Bool × Bool :=
  match v with
  | .null => (cur, true)
  | .bool b => (b, true)
  | _ => (cur, false)

/-- The value of a string of decimal digits. -/
def digitsValue (ds : List Char) : Nat :=
  ds.foldl (fun n c => 10 * n + (c.toNat - 48)) 0

/-- Function `strconv.ParseInt(s, 10, 64)` on the literal of a JSON number: an
optional `-` and digits only, within the range of `int64`. -/
def parseInt64 (lit : String) : Option Int :=
  let neg := lit.data.head? = some '-'
  let ds := if neg then lit.data.drop 1 else lit.data
  if ds = [] ∨ ¬ ds.all (fun c => '0' ≤ c ∧ c ≤ '9') then none
  else
    let n : Int := if neg then -(digitsValue ds : Int) else (digitsValue ds : Int)
    if -(2 ^ 63 : Int) ≤ n ∧ n < (2 ^ 63 : Int) then some n else none

/-- Decoding into an `int` field (`literalStore`, with `int` of 64 bits): a JSON
number is stored when `strconv.ParseInt` reads its literal. -/
def storeInt (cur : Int) (v : Json) : Int × Bool :=
  match v with
  | .null => (cur, true)
  | .number lit =>
    match parseInt64 lit with
    | some n => (n, true)
    | none => (cur, false)
  | _ => (cur, false)

/-- The members of a JSON object decoded in turn into a struct value (method
`object` of the decoder): a member whose name selects no field is skipped, the
value of any other member is stored into its field by `store`. -/
def decodeMembers {α : Type} (names : List String) (store : α → Nat → Json → α × Bool) :
    List (String × Json) → α × Bool → α × Bool
  | [], st => st
  | (k, v) :: rest, st =>
    match findField names k with
    | none => decodeMembers names store rest st
    | some i => decodeMembers names store rest ((store st.1 i v).1, st.2 && (store st.1 i v).2)

/-- Decoding into a struct value: a JSON object is decoded member by member,
`null` leaves the value as it is, any other value is an `UnmarshalTypeError`. -/
def decodeStruct {α : Type} (names : List String) (store : α → Nat → Json → α × Bool)
    (cur : α) (v : Json) : α × Bool :=
  match v with
  | .null => (cur, true)
  | .object ms => decodeMembers names store ms (cur, true)
  | _ => (cur, false)

/-- The growth of a full slice in method `array` of the decoder: a new backing
array of capacity `cap + cap/2`, at least 4, that holds the elements of the
slice and zero values after them. -/
def Slice.grow {α : Type} (zero : α) (s : Slice α) : Slice α :=
  let cap := s.backing.length
  let newcap := if cap + cap / 2 < 4 then 4 else cap + cap / 2
  { backing := s.backing.take s.len ++ List.replicate (newcap - s.len) zero, len := s.len }

/-- The loop of method `array` of the decoder for a slice: element `i` of the
JSON array is decoded into element `i` of the slice, the slice growing and its
length being extended as needed; at the end the length is cut to the number of
elements, and an empty array gives an empty slice. -/
def arrayLoop {α : Type} (dec : α → Json → α × Bool) (zero : α) :
    List Json → Nat → Slice α × Bool → Slice α × Bool
  | [], i, st =>
    if i = 0 then (Slice.nil, st.2)
    else if i < st.1.len then ({ st.1 with len := i }, st.2)
    else st
  | e :: rest, i, st =>
    let s := if i ≥ st.1.backing.length then Slice.grow zero st.1 else st.1
    let s := if i ≥ s.len then { s with len := i + 1 } else s
    let r := dec (s.backing.getD i zero) e
    arrayLoop dec zero rest (i + 1) ({ s with backing := s.backing.set i r.1 }, st.2 && r.2)

/-- Decoding into a slice field: a JSON array is decoded by `arrayLoop`, `null`
gives the nil slice, any other value is an `UnmarshalTypeError`. -/
def decodeSlice {α : Type} (dec : α → Json → α × Bool) (zero : α) (cur : Slice α) (v : Json) :
    Slice α × Bool :=
  match v with
  | .null => (Slice.nil, true)
  | .array es => arrayLoop dec zero es 0 (cur, true)
  | _ => (cur, false)

/-- Storing a JSON value into field `i` of a `ContactMethod`. -/
def ContactMethod.store (c : ContactMethod) (i : Nat) (v : Json) : ContactMethod × Bool :=
  match i with
  | 0 => ({ c with ID := (storeString c.ID v).1 }, (storeString c.ID v).2)
  | 1 => ({ c with Label := (storeString c.Label v).1 }, (storeString c.Label v).2)
  | 2 => ({ c with Address := (storeString c.Address v).1 }, (storeString c.Address v).2)
  | 3 => ({ c with Type_ := (storeString c.Type_ v).1 }, (storeString c.Type_ v).2)
  | 4 => ({ c with CountryCode := (storeInt c.CountryCode v).1 }, (storeInt c.CountryCode v).2)
  | 5 => ({ c with PhoneNumber := (storeString c.PhoneNumber v).1 },
      (storeString c.PhoneNumber v).2)
  | _ => (c, true)

/-- Decoding a JSON value into a `ContactMethod`. -/
def decodeContactMethod (c : ContactMethod) (v : Json) : ContactMethod × Bool :=
  decodeStruct contactMethodNames ContactMethod.store c v

/-- Storing a JSON value into field `i` of a `User`. -/
def User.store (u : User) (i : Nat) (v : Json) : User × Bool :=
  match i with
  | 0 => ({ u with ID := (storeString u.ID v).1 }, (storeString u.ID v).2)
  | 1 => ({ u with Name := (storeString u.Name v).1 }, (storeString u.Name v).2)
  | 2 => ({ u with Email := (storeString u.Email v).1 }, (storeString u.Email v).2)
  | 3 => ({ u with TimeZone := (storeString u.TimeZone v).1 }, (storeString u.TimeZone v).2)
  | 4 => ({ u with Color := (storeString u.Color v).1 }, (storeString u.Color v).2)
  | 5 => ({ u with Role := (storeString u.Role v).1 }, (storeString u.Role v).2)
  | 6 => ({ u with AvatarURL := (storeString u.AvatarURL v).1 }, (storeString u.AvatarURL v).2)
  | 7 => ({ u with UserURL := (storeString u.UserURL v).1 }, (storeString u.UserURL v).2)
  | 8 => ({ u with InvitationSent := (storeBool u.InvitationSent v).1 },
      (storeBool u.InvitationSent v).2)
  | 9 =>
    ({ u with ContactMethods :=
        (decodeSlice decodeContactMethod ContactMethod.zero u.ContactMethods v).1 },
      (decodeSlice decodeContactMethod ContactMethod.zero u.ContactMethods v).2)
  | _ => (u, true)

/-- Decoding a JSON value into a `User`. -/
def decodeUser (u : User) (v : Json) : User × Bool :=
  decodeStruct userNames User.store u v

/-- Storing a JSON value into field `i` of a `GetScheduleUsersOutput`. -/
def GetScheduleUsersOutput.store (o : GetScheduleUsersOutput) (i : Nat) (v : Json) :
    GetScheduleUsersOutput × Bool :=
  match i with
  | 0 => ({ o with Users := (decodeSlice decodeUser User.zero o.Users v).1 },
      (decodeSlice decodeUser User.zero o.Users v).2)
  | _ => (o, true)

/-- Decoding a JSON value into a `GetScheduleUsersOutput`. -/
def decodeGetScheduleUsersOutput (o : GetScheduleUsersOutput) (v : Json) :
    GetScheduleUsersOutput × Bool :=
  decodeStruct ["users"] GetScheduleUsersOutput.store o v

/-- Storing a JSON value into field `i` of a `GetUserOutput`. -/
def GetUserOutput.store (o : GetUserOutput) (i : Nat) (v : Json) : GetUserOutput × Bool :=
  match i with
  | 0 => ({ o with User := (decodeUser o.User v).1 }, (decodeUser o.User v).2)
  | _ => (o, true)

/-- Decoding a JSON value into a `GetUserOutput`. -/
def decodeGetUserOutput (o : GetUserOutput) (v : Json) : GetUserOutput × Bool :=
  decodeStruct ["user"] GetUserOutput.store o v

/-- Function `json.Unmarshal(data, &out)` for a target decoded by `decode`: a
text that is not valid JSON is a syntax error and leaves `out` as it is;
otherwise the value is decoded into `out`, and the error is the
`UnmarshalTypeError` saved on the way, if any. -/
def Unmarshal {α : Type} (decode : α → Json → α × Bool) (data : String) (out : α) :
    α × Option Error :=
  match parseJSON data with
  | none => (out, some Error.syntaxError)
  | some j => ((decode out j).1, if (decode out j).2 then none else some Error.unmarshalType)

/-! ## Bodies that differ by one member -/

/-- What the operations need from outside the package: `parseURL` stands for
`url.Parse` inside `http.NewRequest`, and `roundTrip` for `client.Do(req)`
followed by `ioutil.ReadAll(resp.Body)`: a transport error, or a response whose
body is read with an error or to the end. -/
structure Env (U : Type) where
  parseURL : String → Except String U
  roundTrip : Request U → Except String (Except String String)

/-- The end of `GetScheduleUsers` (lines 92 to 98): the body is decoded into a
zero `GetScheduleUsersOutput`; on an error the output is nil. -/
def scheduleUsersResult (buf : String) : Option GetScheduleUsersOutput × Option Error :=
  match Unmarshal decodeGetScheduleUsersOutput buf GetScheduleUsersOutput.zero with
  | (_, some err) => (none, some err)
  | (out, none) => (some out, none)

/-- Method `GetScheduleUsers` (lines 66 to 99): the pair of results, `none`
standing for nil. -/
def GetScheduleUsers {U : Type} (env : Env U) (p : PagerDuty) (i : GetScheduleUsersInput) :
    Option GetScheduleUsersOutput × Option Error :=
  match makeRequest env.parseURL p "GET" (scheduleUsersURL p i) with
  | .error err => (none, some err)
  | .ok req =>
    match env.roundTrip req with
    | .error msg => (none, some (Error.transport msg))
    | .ok (.error msg) => (none, some (Error.read msg))
    | .ok (.ok buf) => scheduleUsersResult buf

/-- The end of `GetUser` (lines 124 to 130): the body is decoded into a zero
`GetUserOutput`; on an error the output is nil. -/
def userResult (buf : String) : Option GetUserOutput × Option Error :=
  match Unmarshal decodeGetUserOutput buf GetUserOutput.zero with
  | (_, some err) => (none, some err)
  | (out, none) => (some out, none)

/-- Method `GetUser` (lines 102 to 131). -/
def GetUser {U : Type} (env : Env U) (p : PagerDuty) (id : String) :
    Option GetUserOutput × Option Error :=
  match makeRequest env.parseURL p "GET" (userURL p id) with
  | .error err => (none, some err)
  | .ok req =>
    match env.roundTrip req with
    | .error msg => (none, some (Error.transport msg))
    | .ok (.error msg) => (none, some (Error.read msg))
    | .ok (.ok buf) => userResult buf

/-- The server that answers every request with `body`, with a URL parser that
accepts every string. -/
def serverOf (body : String) : Env String :=
  { parseURL := fun s => .ok s, roundTrip := fun _ => .ok (.ok body) }

theorem encode_nil : Values.Encode [] = "" := by
  decide

theorem encode_single (k a : String) :
    Values.Encode [(k, [a])] = QueryEscape k ++ "=" ++ QueryEscape a := by
  simp [Values.Encode, sortByKey, insertByKey, encodePairs, String.intercalate,
    String.intercalate.go]

theorem encode_since_until (a b : String) :
    Values.Encode [("since", [a]), ("until", [b])] =
      "since=" ++ QueryEscape a ++ "&until=" ++ QueryEscape b := by
  have h1 : strLE "since" "until" = true := by decide
  have h2 : strLE "until" "since" = false := by decide
  have h3 : QueryEscape "since" = "since" := by decide
  have h4 : QueryEscape "until" = "until" := by decide
  apply String.ext
  simp [Values.Encode, sortByKey, insertByKey, h1, h2, encodePairs, h3, h4, String.intercalate,
    String.intercalate.go, String.data_append]

theorem rawQuery_aux (A : List Char) (h : '?' ∉ A) :
    (((A ++ ['?']).takeWhile (fun c => c ≠ '#')).dropWhile (fun c => c ≠ '?')).drop 1 = [] := by
  induction A with
  | nil => simp [List.takeWhile, List.dropWhile]
  | cons a A ih =>
    have ha : a ≠ '?' := fun e => h (by simp [e])
    have hA : '?' ∉ A := fun e => h (by simp [e])
    by_cases h1 : a = '#'
    · simp [List.takeWhile, h1]
    · simpa [List.takeWhile, List.dropWhile, h1, ha] using ih hA

/-- Claim C1, as the code has it: with both timestamps present the URL string
that `GetScheduleUsers` builds is `https://` + sub-domain + `/api/v1/schedules/` +
schedule ID + `/users?since=` + E(t1) + `&until=` + E(t2), where E(t) is the
query-escaped RFC 3339 text of t (`url.QueryEscape`, which writes `:` as `%3A`
and `+` as `%2B`); with only one timestamp present only that parameter appears. -/
theorem scheduleUsersURL_escaped (p : PagerDuty) (s : String) (t1 t2 : Time) :
    scheduleUsersURL p ⟨s, some t1, some t2⟩ =
        "https://" ++ p.SubDomain ++ "/api/v1/schedules/" ++ s ++ "/users?since=" ++
          QueryEscape t1.FormatRFC3339 ++ "&until=" ++ QueryEscape t2.FormatRFC3339 ∧
      scheduleUsersURL p ⟨s, some t1, none⟩ =
        "https://" ++ p.SubDomain ++ "/api/v1/schedules/" ++ s ++ "/users?since=" ++
          QueryEscape t1.FormatRFC3339 ∧
      scheduleUsersURL p ⟨s, none, some t2⟩ =
        "https://" ++ p.SubDomain ++ "/api/v1/schedules/" ++ s ++ "/users?until=" ++
          QueryEscape t2.FormatRFC3339 := by
  have hv : scheduleUsersValues ⟨s, some t1, some t2⟩ =
      [("since", [t1.FormatRFC3339]), ("until", [t2.FormatRFC3339])] := by
    simp [scheduleUsersValues, Values.Add]
  have hv1 : scheduleUsersValues ⟨s, some t1, none⟩ = [("since", [t1.FormatRFC3339])] := by
    simp [scheduleUsersValues, Values.Add]
  have hv2 : scheduleUsersValues ⟨s, none, some t2⟩ = [("until", [t2.FormatRFC3339])] := by
    simp [scheduleUsersValues, Values.Add]
  have h3 : QueryEscape "since" = "since" := by decide
  have h4 : QueryEscape "until" = "until" := by decide
  refine ⟨?_, ?_, ?_⟩
  · rw [scheduleUsersURL, hv, encode_since_until]
    apply String.ext
    simp [String.data_append]
  · rw [scheduleUsersURL, hv1, encode_single, h3]
    apply String.ext
    simp [String.data_append]
  · rw [scheduleUsersURL, hv2, encode_single, h4]
    apply String.ext
    simp [String.data_append]

/-- Claim C1 as stated fails: for the client of `acme.pagerduty.com`, schedule
`PX1`, Since 2020-01-02T03:04:05Z and Until 2020-01-02T04:04:05+01:00 the URL
holds the escaped timestamps, not their RFC 3339 text. -/
theorem scheduleUsersURL_not_plain :
    (Time.mk 1577934245 0 0).FormatRFC3339 = "2020-01-02T03:04:05Z" ∧
      (Time.mk 1577934245 0 3600).FormatRFC3339 = "2020-01-02T04:04:05+01:00" ∧
      scheduleUsersURL ⟨"acme.pagerduty.com", "tok"⟩
          ⟨"PX1", some (Time.mk 1577934245 0 0), some (Time.mk 1577934245 0 3600)⟩ =
        "https://acme.pagerduty.com/api/v1/schedules/PX1/users?since=2020-01-02T03%3A04%3A05Z&until=2020-01-02T04%3A04%3A05%2B01%3A00" ∧
      scheduleUsersURL ⟨"acme.pagerduty.com", "tok"⟩
          ⟨"PX1", some (Time.mk 1577934245 0 0), some (Time.mk 1577934245 0 3600)⟩ ≠
        "https://" ++ "acme.pagerduty.com" ++ "/api/v1/schedules/" ++ "PX1" ++ "/users?since=" ++
          (Time.mk 1577934245 0 0).FormatRFC3339 ++ "&until=" ++
          (Time.mk 1577934245 0 3600).FormatRFC3339 := by
  decide!

/-- Claim C2: with Since and Until both nil, `GetScheduleUsers` adds no
parameter, the query it encodes is empty and the URL string ends with the `?`;
and when neither the sub-domain nor the schedule ID holds a `?`, the raw query
of that URL (the text after its first `?`) is empty. -/
theorem scheduleUsersURL_no_timestamps (p : PagerDuty) (s : String) :
    scheduleUsersValues ⟨s, none, none⟩ = [] ∧
      (scheduleUsersValues ⟨s, none, none⟩).Encode = "" ∧
      scheduleUsersURL p ⟨s, none, none⟩ =
        "https://" ++ p.SubDomain ++ "/api/v1/schedules/" ++ s ++ "/users?" ∧
      ('?' ∉ p.SubDomain.data → '?' ∉ s.data →
        rawQuery (scheduleUsersURL p ⟨s, none, none⟩) = "") := by
  have hv : scheduleUsersValues ⟨s, none, none⟩ = [] := rfl
  have hu : scheduleUsersURL p ⟨s, none, none⟩ =
      "https://" ++ p.SubDomain ++ "/api/v1/schedules/" ++ s ++ "/users?" := by
    rw [scheduleUsersURL, hv, encode_nil]
    apply String.ext
    simp [String.data_append]
  refine ⟨hv, by rw [hv, encode_nil], hu, ?_⟩
  intro hd hs
  rw [hu]
  apply String.ext
  have hq : '?' ∉ "https://".data ++ p.SubDomain.data ++ "/api/v1/schedules/".data ++ s.data ++
      "/users".data := by
    simp only [List.mem_append, not_or]
    exact ⟨⟨⟨⟨by decide, hd⟩, by decide⟩, hs⟩, by decide⟩
  have := rawQuery_aux _ hq
  simpa [rawQuery, String.data_append, List.append_assoc] using this

/-- Claim C2 at the client of `acme.pagerduty.com` and schedule `PX1`: the raw
query of the URL is empty. -/
theorem scheduleUsersURL_no_timestamps_witness :
    scheduleUsersURL ⟨"acme.pagerduty.com", "tok"⟩ ⟨"PX1", none, none⟩ =
        "https://" ++ "acme.pagerduty.com" ++ "/api/v1/schedules/" ++ "PX1" ++ "/users?" ∧
      rawQuery (scheduleUsersURL ⟨"acme.pagerduty.com", "tok"⟩ ⟨"PX1", none, none⟩) = "" :=
  ⟨(scheduleUsersURL_no_timestamps ⟨"acme.pagerduty.com", "tok"⟩ "PX1").2.2.1,
   (scheduleUsersURL_no_timestamps ⟨"acme.pagerduty.com", "tok"⟩ "PX1").2.2.2
     (by decide) (by decide)⟩

theorem NewRequest_ok {U : Type} {parseURL : String → Except String U} {method urlString : String}
    {req : Request U} (h : NewRequest parseURL method urlString = .ok req) :
    parseURL urlString = .ok req.URL ∧
      req.Method = (if method = "" then "GET" else method) ∧ req.Header = [] := by
  unfold NewRequest at h
  simp only at h
  by_cases hv : validMethod (if method = "" then "GET" else method) = true
  · rw [if_neg (by simpa using hv)] at h
    cases hp : parseURL urlString with
    | error e => rw [hp] at h; simp at h
    | ok u =>
      rw [hp] at h
      simp only [Except.ok.injEq] at h
      subst h
      exact ⟨rfl, rfl, rfl⟩
  · rw [if_pos (by simpa using hv)] at h
    simp at h

/-- Claim C5, as the code has it: a request that `makeRequest` returns has the
method given, or `GET` when the method given is empty, the URL that the URL
string parses to, and exactly the two headers `Content-Type: application/json`
and `Authorization: Token token=` + token; a client with the same token gets
the same request. -/
theorem makeRequest_ok {U : Type} (parseURL : String → Except String U) (p : PagerDuty)
    (method urlString : String) (req : Request U)
    (h : makeRequest parseURL p method urlString = .ok req) :
    req.Method = (if method = "" then "GET" else method) ∧
      parseURL urlString = .ok req.URL ∧
      req.Header = [("Content-Type", ["application/json"]),
        ("Authorization", ["Token token=" ++ p.Token])] ∧
      ∀ q : PagerDuty, q.Token = p.Token → makeRequest parseURL q method urlString = .ok req := by
  have hc : CanonicalMIMEHeaderKey "Content-type" = "Content-Type" := by decide
  have ha : CanonicalMIMEHeaderKey "Authorization" = "Authorization" := by decide
  have hne : ("Content-Type" = "Authorization") = False := by decide
  unfold makeRequest at h
  cases hn : NewRequest parseURL method urlString with
  | error e => rw [hn] at h; simp at h
  | ok req0 =>
    rw [hn] at h
    simp only [Except.ok.injEq] at h
    obtain ⟨h1, h2, h3⟩ := NewRequest_ok hn
    subst h
    refine ⟨h2, h1, ?_, ?_⟩
    · simp [h3, Header.Add, Values.Add, hc, ha, hne]
    · intro q hq
      unfold makeRequest
      rw [hn, hq]

/-- Claim C5 at the method `GET` and a URL parser that accepts every string. -/
theorem makeRequest_ok_witness :
    ("GET" : String) = (if ("GET" : String) = "" then "GET" else "GET") ∧
      (Except.ok "https://acme.pagerduty.com/api/v1/users/U1" : Except String String) =
        .ok "https://acme.pagerduty.com/api/v1/users/U1" ∧
      [("Content-Type", ["application/json"]), ("Authorization", ["Token token=tok"])] =
        [("Content-Type", ["application/json"]),
          ("Authorization", ["Token token=" ++ "tok"])] ∧
      ∀ q : PagerDuty, q.Token = "tok" →
        makeRequest (fun s => Except.ok s) q "GET" "https://acme.pagerduty.com/api/v1/users/U1" =
          .ok { Method := "GET", URL := "https://acme.pagerduty.com/api/v1/users/U1",
                Header := [("Content-Type", ["application/json"]),
                  ("Authorization", ["Token token=tok"])] } :=
  makeRequest_ok (fun s => Except.ok s) ⟨"acme.pagerduty.com", "tok"⟩ "GET"
    "https://acme.pagerduty.com/api/v1/users/U1"
    { Method := "GET", URL := "https://acme.pagerduty.com/api/v1/users/U1",
      Header := [("Content-Type", ["application/json"]), ("Authorization", ["Token token=tok"])] }
    rfl

/-- Claim C5 as stated fails at the empty method: `makeRequest` succeeds and
the request it returns has the method `GET`, not the empty method given. -/
theorem makeRequest_empty_method :
    makeRequest (fun s => Except.ok s) ⟨"acme.pagerduty.com", "tok"⟩ ""
        "https://acme.pagerduty.com/api/v1/users/U1" =
      .ok { Method := "GET", URL := "https://acme.pagerduty.com/api/v1/users/U1",
            Header := [("Content-Type", ["application/json"]),
              ("Authorization", ["Token token=tok"])] } ∧
      ("GET" : String) ≠ "" :=
  ⟨rfl, by decide⟩

/-! ## `TimezoneMap` -/

theorem find_key_some {l : List (String × String)} {s : String} {e : String × String}
    (h : l.find? (fun e => e.1 = s) = some e) : e ∈ l ∧ e.1 = s := by
  have h1 := List.find?_some h
  have h2 := List.mem_of_find?_eq_some h
  exact ⟨h2, by simpa using h1⟩

theorem find_key_of_mem {l : List (String × String)} (hn : (l.map Prod.fst).Nodup)
    {k v : String} (h : (k, v) ∈ l) : l.find? (fun e => e.1 = k) = some (k, v) := by
  induction l with
  | nil => simp at h
  | cons x l ih =>
    simp only [List.map_cons, List.nodup_cons] at hn
    rcases List.mem_cons.mp h with h1 | h1
    · subst h1
      simp
    · have hx : x.1 ≠ k := by
        intro e
        apply hn.1
        rw [e]
        exact List.mem_map.mpr ⟨(k, v), h1, rfl⟩
      simp [List.find?, hx, ih hn.2 h1]

theorem TimezoneMap_keys_nodup : (TimezoneMap.map Prod.fst).Nodup := by
  decide!

/-- Claim C6: a lookup in `TimezoneMap` finds `s` exactly when `s` is literally
one of the keys, and then gives the one value of that key; `Tokyo` gives
`Asia/Tokyo`, while `Nowhereland` and `tokyo` are not found. -/
theorem TimezoneMap_get_exact :
    (∀ s, (TimezoneMap.get s).isSome = true ↔ s ∈ TimezoneMap.map Prod.fst) ∧
      (∀ k v, TimezoneMap.get k = some v ↔ (k, v) ∈ TimezoneMap) ∧
      TimezoneMap.get "Tokyo" = some "Asia/Tokyo" ∧
      TimezoneMap.get "Nowhereland" = none ∧
      TimezoneMap.get "tokyo" = none := by
  have key : ∀ k v, TimezoneMap.get k = some v ↔ (k, v) ∈ TimezoneMap := by
    intro k v
    constructor
    · intro h
      simp only [TimezoneMap.get, Option.map_eq_some'] at h
      obtain ⟨e, he, hv⟩ := h
      have := find_key_some he
      rcases e with ⟨a, b⟩
      simp only at this hv
      rw [← this.2, ← hv]
      exact this.1
    · intro h
      simp [TimezoneMap.get, find_key_of_mem TimezoneMap_keys_nodup h]
  refine ⟨?_, key, by decide!, by decide!, by decide!⟩
  intro s
  constructor
  · intro h
    obtain ⟨v, hv⟩ := Option.isSome_iff_exists.mp h
    exact List.mem_map.mpr ⟨(s, v), (key s v).mp hv, rfl⟩
  · intro h
    obtain ⟨e, he, hs⟩ := List.mem_map.mp h
    rcases e with ⟨a, b⟩
    simp only at hs
    subst hs
    rw [(key a b).mpr he]
    rfl

/-! ## Errors of the two operations -/

theorem Unmarshal_invalid {α : Type} (decode : α → Json → α × Bool) (data : String) (out : α)
    (h : parseJSON data = none) : Unmarshal decode data out = (out, some Error.syntaxError) := by
  simp [Unmarshal, h]

theorem scheduleUsersResult_nil_of_error (buf : String) :
    (scheduleUsersResult buf).2 ≠ none → (scheduleUsersResult buf).1 = none := by
  unfold scheduleUsersResult
  split <;> simp

theorem userResult_nil_of_error (buf : String) :
    (userResult buf).2 ≠ none → (userResult buf).1 = none := by
  unfold userResult
  split <;> simp

theorem GetScheduleUsers_nil_of_error {U : Type} (env : Env U) (p : PagerDuty)
    (i : GetScheduleUsersInput) :
    (GetScheduleUsers env p i).2 ≠ none → (GetScheduleUsers env p i).1 = none := by
  unfold GetScheduleUsers
  split
  · simp
  · split
    · simp
    · simp
    · exact scheduleUsersResult_nil_of_error _

theorem GetUser_nil_of_error {U : Type} (env : Env U) (p : PagerDuty) (id : String) :
    (GetUser env p id).2 ≠ none → (GetUser env p id).1 = none := by
  unfold GetUser
  split
  · simp
  · split
    · simp
    · simp
    · exact userResult_nil_of_error _

theorem GetScheduleUsers_of_body {U : Type} {env : Env U} {p : PagerDuty}
    {i : GetScheduleUsersInput} {req : Request U} {body : String}
    (hreq : makeRequest env.parseURL p "GET" (scheduleUsersURL p i) = .ok req)
    (hbody : env.roundTrip req = .ok (.ok body)) :
    GetScheduleUsers env p i = scheduleUsersResult body := by
  unfold GetScheduleUsers
  rw [hreq]
  simp only [hbody]

theorem GetUser_of_body {U : Type} {env : Env U} {p : PagerDuty} {id : String}
    {req : Request U} {body : String}
    (hreq : makeRequest env.parseURL p "GET" (userURL p id) = .ok req)
    (hbody : env.roundTrip req = .ok (.ok body)) :
    GetUser env p id = userResult body := by
  unfold GetUser
  rw [hreq]
  simp only [hbody]

/-- Claim C8: whenever `GetScheduleUsers` or `GetUser` returns an error its
output is nil; a response body that is not valid JSON makes both return the
syntax error of `json.Unmarshal` with a nil output, and a transport error or an
error of reading the body is returned with a nil output as well. -/
theorem error_means_nil_output {U : Type} (env : Env U) (p : PagerDuty)
    (i : GetScheduleUsersInput) (id : String) :
    ((GetScheduleUsers env p i).2 ≠ none → (GetScheduleUsers env p i).1 = none) ∧
      ((GetUser env p id).2 ≠ none → (GetUser env p id).1 = none) ∧
      (∀ req body, makeRequest env.parseURL p "GET" (scheduleUsersURL p i) = .ok req →
        env.roundTrip req = .ok (.ok body) → parseJSON body = none →
        GetScheduleUsers env p i = (none, some Error.syntaxError)) ∧
      (∀ req body, makeRequest env.parseURL p "GET" (userURL p id) = .ok req →
        env.roundTrip req = .ok (.ok body) → parseJSON body = none →
        GetUser env p id = (none, some Error.syntaxError)) ∧
      (∀ req msg, makeRequest env.parseURL p "GET" (scheduleUsersURL p i) = .ok req →
        env.roundTrip req = .error msg →
        GetScheduleUsers env p i = (none, some (Error.transport msg))) ∧
      (∀ req msg, makeRequest env.parseURL p "GET" (userURL p id) = .ok req →
        env.roundTrip req = .error msg →
        GetUser env p id = (none, some (Error.transport msg))) ∧
      (∀ req msg, makeRequest env.parseURL p "GET" (scheduleUsersURL p i) = .ok req →
        env.roundTrip req = .ok (.error msg) →
        GetScheduleUsers env p i = (none, some (Error.read msg))) ∧
      (∀ req msg, makeRequest env.parseURL p "GET" (userURL p id) = .ok req →
        env.roundTrip req = .ok (.error msg) →
        GetUser env p id = (none, some (Error.read msg))) := by
  refine ⟨GetScheduleUsers_nil_of_error env p i, GetUser_nil_of_error env p id,
    ?_, ?_, ?_, ?_, ?_, ?_⟩
  · intro req body hreq hbody hj
    rw [GetScheduleUsers_of_body hreq hbody, scheduleUsersResult, Unmarshal_invalid _ _ _ hj]
  · intro req body hreq hbody hj
    rw [GetUser_of_body hreq hbody, userResult, Unmarshal_invalid _ _ _ hj]
  · intro req msg hreq hrt
    unfold GetScheduleUsers
    rw [hreq]
    simp only [hrt]
  · intro req msg hreq hrt
    unfold GetUser
    rw [hreq]
    simp only [hrt]
  · intro req msg hreq hrt
    unfold GetScheduleUsers
    rw [hreq]
    simp only [hrt]
  · intro req msg hreq hrt
    unfold GetUser
    rw [hreq]
    simp only [hrt]

/-- Claim C8 at a truncated object as the body. -/
theorem error_means_nil_output_witness :
    parseJSON "\x7b\"users\":[" = none ∧
      GetScheduleUsers (serverOf "\x7b\"users\":[") ⟨"acme.pagerduty.com", "tok"⟩
          ⟨"PX1", none, none⟩ = (none, some Error.syntaxError) ∧
      GetUser (serverOf "\x7b\"users\":[") ⟨"acme.pagerduty.com", "tok"⟩ "U1" =
        (none, some Error.syntaxError) :=
  have h : parseJSON "\x7b\"users\":[" = none :=
    Option.isNone_iff_eq_none.mp (by decide!)
  ⟨h,
   (error_means_nil_output (serverOf "\x7b\"users\":[") ⟨"acme.pagerduty.com", "tok"⟩
      ⟨"PX1", none, none⟩ "U1").2.2.1 _ _ rfl rfl h,
   (error_means_nil_output (serverOf "\x7b\"users\":[") ⟨"acme.pagerduty.com", "tok"⟩
      ⟨"PX1", none, none⟩ "U1").2.2.2.1 _ _ rfl rfl h⟩

/-! ## Decoding: members, slices and results -/

theorem cycles_arith (D n400 n100 n4 n1 r1 r2 r3 yday : Nat)
    (h1 : n400 = D / 146097) (h2 : r1 = D - 146097 * n400)
    (h3 : n100 = r1 / 36524 - r1 / 36524 / 4) (h4 : r2 = r1 - 36524 * n100)
    (h5 : n4 = r2 / 1461) (h6 : r3 = r2 - 1461 * n4)
    (h7 : n1 = r3 / 365 - r3 / 365 / 4) (h8 : yday = r3 - 365 * n1)
    (hlo : 106751990353566 ≤ D) (hhi : D < 106751994005991) :
    292277022399 ≤ 400 * n400 + 100 * n100 + 4 * n4 + n1 ∧
      400 * n400 + 100 * n100 + 4 * n4 + n1 - 292277022399 ≤ 9999 ∧
      (((400 * n400 + 100 * n100 + 4 * n4 + n1 - 292277022399) % 4 = 0 ∧
          ((400 * n400 + 100 * n100 + 4 * n4 + n1 - 292277022399) % 100 ≠ 0 ∨
            (400 * n400 + 100 * n100 + 4 * n4 + n1 - 292277022399) % 400 = 0)) →
        yday < 366) ∧
      (¬ ((400 * n400 + 100 * n100 + 4 * n4 + n1 - 292277022399) % 4 = 0 ∧
          ((400 * n400 + 100 * n100 + 4 * n4 + n1 - 292277022399) % 100 ≠ 0 ∨
            (400 * n400 + 100 * n100 + 4 * n4 + n1 - 292277022399) % 400 = 0)) →
        yday < 365) ∧
      365 * (400 * n400 + 100 * n100 + 4 * n4 + n1 - 292277022399) +
          ((400 * n400 + 100 * n100 + 4 * n4 + n1 - 292277022399) + 3) / 4 -
          ((400 * n400 + 100 * n100 + 4 * n4 + n1 - 292277022399) + 99) / 100 +
          ((400 * n400 + 100 * n100 + 4 * n4 + n1 - 292277022399) + 399) / 400 +
        yday + 106751990353566 = D := by
  have hA : D = 146097 * n400 + r1 ∧ r1 < 146097 := by omega
  have hA2 : 730692555 ≤ n400 ∧ n400 ≤ 730692580 := by omega
  have hB : r1 = 36524 * n100 + r2 ∧ n100 ≤ 3 ∧ (r2 < 36524 ∨ (n100 = 3 ∧ r2 = 36524)) := by
    omega
  have hC : r2 = 1461 * n4 + r3 ∧ n4 ≤ 24 ∧ r3 < 1461 := by omega
  have hD : r3 = 365 * n1 + yday ∧ n1 ≤ 3 ∧ (yday < 365 ∨ (n1 = 3 ∧ yday = 365)) := by
    omega
  clear h1 h2 h3 h4 h5 h6 h7 h8
  obtain ⟨hA, hA'⟩ := hA
  obtain ⟨hB, hB', hB''⟩ := hB
  obtain ⟨hC, hC', hC''⟩ := hC
  obtain ⟨hD, hD', hD''⟩ := hD
  subst hA
  obtain ⟨m, rfl⟩ : ∃ m, n400 = 730692555 + m := ⟨n400 - 730692555, by omega⟩
  have hm : m ≤ 25 := by omega
  have h0 : 292277022399 ≤ 400 * (730692555 + m) + 100 * n100 + 4 * n4 + n1 := by
    interval_cases n100 <;> interval_cases n1 <;> omega
  have e400 : (400 * (730692555 + m) + 100 * n100 + 4 * n4 + n1 - 292277022399 + 399) / 400 =
      m := by omega
  have e100 : (400 * (730692555 + m) + 100 * n100 + 4 * n4 + n1 - 292277022399 + 99) / 100 + 3 =
      4 * m + n100 := by omega
  have e4 : (400 * (730692555 + m) + 100 * n100 + 4 * n4 + n1 - 292277022399 + 3) / 4 + 99 =
      100 * m + 25 * n100 + n4 := by omega
  refine ⟨h0, by omega, by omega, by omega, ?_⟩
  omega

theorem absClock_spec (abs : Nat) :
    (absClock abs).1 ≤ 23 ∧ (absClock abs).2.1 ≤ 59 ∧ (absClock abs).2.2 ≤ 59 ∧
      (absClock abs).1 * 3600 + (absClock abs).2.1 * 60 + (absClock abs).2.2 = abs % 86400 := by
  simp only [absClock, secondsPerDay]
  omega

theorem digitOf_digitChar : ∀ d : Nat, d < 10 → digitOf (digitChar d) = some d := by
  decide

theorem twoDigits_digitChar (a b : Nat) (ha : a < 10) (hb : b < 10) :
    twoDigits (digitChar a) (digitChar b) = some (10 * a + b) := by
  simp [twoDigits, digitOf_digitChar a ha, digitOf_digitChar b hb]

theorem appendInt_two (n : Nat) (h : n < 100) :
    appendInt (n : Int) 2 = [digitChar (n / 10), digitChar (n % 10)] := by
  have : ¬ ((n : Int) < 0) := by omega
  simp [appendInt, this, h]

theorem appendInt_four (n : Nat) (h : n < 10000) :
    appendInt (n : Int) 4 =
      [digitChar (n / 1000), digitChar (n / 100 % 10), digitChar (n / 10 % 10),
        digitChar (n % 10)] := by
  have : ¬ ((n : Int) < 0) := by omega
  simp [appendInt, this, h]

theorem monthDay_spec : ∀ leap : Bool, ∀ n : Nat, n < 366 → (n < 365 ∨ leap = true) →
    1 ≤ (monthDay leap n).1 ∧ (monthDay leap n).1 ≤ 12 ∧ 1 ≤ (monthDay leap n).2 ∧
      (monthDay leap n).2 ≤ daysInMonth leap (monthDay leap n).1 ∧
      (monthDay leap n).2 < 100 ∧
      ((List.range ((monthDay leap n).1 - 1)).map (fun k => daysInMonth leap (k + 1))).sum +
        (monthDay leap n).2 = n + 1 := by
  decide!

theorem absYearDay_eq (abs : Nat) :
    ∃ n400 n100 n4 n1 r1 r2 r3 yday : Nat,
      n400 = abs / 86400 / 146097 ∧ r1 = abs / 86400 - 146097 * n400 ∧
      n100 = r1 / 36524 - r1 / 36524 / 4 ∧ r2 = r1 - 36524 * n100 ∧
      n4 = r2 / 1461 ∧ r3 = r2 - 1461 * n4 ∧
      n1 = r3 / 365 - r3 / 365 / 4 ∧ yday = r3 - 365 * n1 ∧
      absYearDay abs =
        (((400 * n400 + 100 * n100 + 4 * n4 + n1 : Nat) : Int) + (-292277022399), yday) := by
  refine ⟨_, _, _, _, _, _, _, _, rfl, rfl, rfl, rfl, rfl, rfl, rfl, rfl, ?_⟩
  simp only [absYearDay, secondsPerDay, daysPer400Years, daysPer100Years, daysPer4Years,
    absoluteZeroYear, Nat.reduceMul, Nat.reduceAdd, Nat.cast_add, Nat.cast_mul, Nat.cast_ofNat]




theorem isLeap_natCast (y : Nat) : isLeap (y : Int) = leapYear y := by
  unfold isLeap leapYear
  rw [decide_eq_decide]
  omega

theorem absYearDay_spec (abs : Nat) (hlo : 9223371966548102400 ≤ abs)
    (hhi : abs < 9223372282117622400) :
    ∃ y : Nat, (absYearDay abs).1 = (y : Int) ∧ y ≤ 9999 ∧
      ((absYearDay abs).2 < 365 ∨ (leapYear y = true ∧ (absYearDay abs).2 = 365)) ∧
      daysBeforeYear y + (absYearDay abs).2 + 106751990353566 = abs / 86400 := by
  have hD : 106751990353566 ≤ abs / 86400 ∧ abs / 86400 < 106751994005991 := by omega
  obtain ⟨n400, n100, n4, n1, r1, r2, r3, yday, h1, h2, h3, h4, h5, h6, h7, h8, he⟩ :=
    absYearDay_eq abs
  obtain ⟨k0, k1, k2, k3, k4⟩ :=
    cycles_arith (abs / 86400) n400 n100 n4 n1 r1 r2 r3 yday h1 h2 h3 h4 h5 h6 h7 h8 hD.1 hD.2
  rw [he]
  refine ⟨400 * n400 + 100 * n100 + 4 * n4 + n1 - 292277022399, ?_, k1, ?_, ?_⟩
  · simp only
    omega
  · simp only [leapYear, decide_eq_true_eq]
    by_cases hl : (400 * n400 + 100 * n100 + 4 * n4 + n1 - 292277022399) % 4 = 0 ∧
        ((400 * n400 + 100 * n100 + 4 * n4 + n1 - 292277022399) % 100 ≠ 0 ∨
          (400 * n400 + 100 * n100 + 4 * n4 + n1 - 292277022399) % 400 = 0)
    · have := k2 hl
      rcases Nat.lt_or_ge yday 365 with h | h
      · exact Or.inl h
      · exact Or.inr ⟨hl, by omega⟩
    · exact Or.inl (k3 hl)
  · simp only [daysBeforeYear]
    exact k4

theorem formatZone_pos (a : Nat) (h0 : 0 < a) (h1 : a < 1440) :
    formatZone (60 * (a : Int)) =
      ['+', digitChar (a / 60 / 10), digitChar (a / 60 % 10), ':',
        digitChar (a % 60 / 10), digitChar (a % 60 % 10)] := by
  have hne : (60 * (a : Int)) ≠ 0 := by omega
  have hz : (60 * (a : Int)).tdiv 60 = a := Int.mul_tdiv_cancel_left _ (by decide)
  have hnn : ¬ ((a : Int) < 0) := by omega
  simp only [formatZone, hne, if_false, hz, hnn, Int.natAbs_ofNat]
  rw [appendInt_two _ (by omega), appendInt_two _ (by omega)]
  rfl

theorem formatZone_neg (a : Nat) (h0 : 0 < a) (h1 : a < 1440) :
    formatZone (-(60 * (a : Int))) =
      ['-', digitChar (a / 60 / 10), digitChar (a / 60 % 10), ':',
        digitChar (a % 60 / 10), digitChar (a % 60 % 10)] := by
  have hne : (-(60 * (a : Int))) ≠ 0 := by omega
  have hz : (-(60 * (a : Int))).tdiv 60 = -(a : Int) := by
    rw [show (-(60 * (a : Int))) = 60 * (-(a : Int)) by ring]
    exact Int.mul_tdiv_cancel_left _ (by decide)
  have hn : (-(a : Int)) < 0 := by omega
  simp only [formatZone, hne, if_false, hz, hn, if_true, Int.natAbs_neg, Int.natAbs_ofNat]
  rw [appendInt_two _ (by omega), appendInt_two _ (by omega)]
  rfl

theorem parseZone_digits (s : Char) (a : Nat) (h1 : a < 1440) :
    parseZone [s, digitChar (a / 60 / 10), digitChar (a / 60 % 10), ':',
        digitChar (a % 60 / 10), digitChar (a % 60 % 10)] =
      if s = '+' then some ((60 * a : Nat) : Int)
      else if s = '-' then some (-((60 * a : Nat) : Int))
      else none := by
  have e1 : 10 * (a / 60 / 10) + a / 60 % 10 = a / 60 := by omega
  have e2 : 10 * (a % 60 / 10) + a % 60 % 10 = a % 60 := by omega
  have e3 : a / 60 * 3600 + a % 60 * 60 = 60 * a := by omega
  have h23 : a / 60 ≤ 23 := by omega
  have h59 : a % 60 ≤ 59 := by omega
  simp only [parseZone, twoDigits_digitChar _ _ (show a / 60 / 10 < 10 by omega)
    (show a / 60 % 10 < 10 by omega), twoDigits_digitChar _ _ (show a % 60 / 10 < 10 by omega)
    (show a % 60 % 10 < 10 by omega), e1, e2, e3, h23, h59, and_self, if_true]

theorem parseZone_formatZone (off : Int) (h60 : off % 60 = 0) (hlo : -86400 < off)
    (hhi : off < 86400) : parseZone (formatZone off) = some off := by
  rcases lt_trichotomy off 0 with h | h | h
  · obtain ⟨a, ha⟩ : ∃ a : Nat, off = -(60 * (a : Int)) := ⟨(-off / 60).toNat, by omega⟩
    subst ha
    rw [formatZone_neg a (by omega) (by omega), parseZone_digits _ a (by omega)]
    simp
  · subst h
    rfl
  · obtain ⟨a, ha⟩ : ∃ a : Nat, off = 60 * (a : Int) := ⟨(off / 60).toNat, by omega⟩
    subst ha
    rw [formatZone_pos a (by omega) (by omega), parseZone_digits _ a (by omega)]
    simp

theorem parseRFC3339_fields (y mo d h mi s : Nat) (off : Int) (zone : List Char)
    (hy : y ≤ 9999) (hmo1 : 1 ≤ mo) (hmo2 : mo ≤ 12) (hd1 : 1 ≤ d)
    (hd2 : d ≤ daysInMonth (leapYear y) mo) (hd3 : d < 100) (hh : h ≤ 23) (hmi : mi ≤ 59)
    (hs : s ≤ 59) (hz : parseZone zone = some off) (hf : parseFraction zone = some (0, zone)) :
    parseRFC3339 (String.mk ([digitChar (y / 1000), digitChar (y / 100 % 10),
        digitChar (y / 10 % 10), digitChar (y % 10), '-', digitChar (mo / 10),
        digitChar (mo % 10), '-', digitChar (d / 10), digitChar (d % 10), 'T',
        digitChar (h / 10), digitChar (h % 10), ':', digitChar (mi / 10), digitChar (mi % 10),
        ':', digitChar (s / 10), digitChar (s % 10)] ++ zone)) =
      some { unixSec := daysFromCivil y mo d * 86400 + ((h * 3600 + mi * 60 + s : Nat) : Int) - off,
             nsec := 0, offset := off } := by
  have e1 : 100 * (10 * (y / 1000) + y / 100 % 10) + (10 * (y / 10 % 10) + y % 10) = y := by
    omega
  have e2 : 10 * (mo / 10) + mo % 10 = mo := by omega
  have e3 : 10 * (d / 10) + d % 10 = d := by omega
  have e4 : 10 * (h / 10) + h % 10 = h := by omega
  have e5 : 10 * (mi / 10) + mi % 10 = mi := by omega
  have e6 : 10 * (s / 10) + s % 10 = s := by omega
  simp only [parseRFC3339, List.cons_append, List.nil_append, true_or, if_true,
    twoDigits_digitChar _ _ (show y / 1000 < 10 by omega) (show y / 100 % 10 < 10 by omega),
    twoDigits_digitChar _ _ (show y / 10 % 10 < 10 by omega) (show y % 10 < 10 by omega),
    twoDigits_digitChar _ _ (show mo / 10 < 10 by omega) (show mo % 10 < 10 by omega),
    twoDigits_digitChar _ _ (show d / 10 < 10 by omega) (show d % 10 < 10 by omega),
    twoDigits_digitChar _ _ (show h / 10 < 10 by omega) (show h % 10 < 10 by omega),
    twoDigits_digitChar _ _ (show mi / 10 < 10 by omega) (show mi % 10 < 10 by omega),
    twoDigits_digitChar _ _ (show s / 10 < 10 by omega) (show s % 10 < 10 by omega),
    hf, hz, e1, e2, e3, e4, e5, e6, hmo1, hmo2, hd1, hd2, hh, hmi, hs, and_self]

theorem parseFraction_formatZone (off : Int) :
    parseFraction (formatZone off) = some (0, formatZone off) := by
  unfold formatZone
  split
  · rfl
  · simp only
    split <;> rfl

theorem Time_abs_eq (t : Time) (hlo : -62167219200 ≤ t.unixSec + t.offset)
    (hhi : t.unixSec + t.offset < 253402300800) :
    (t.abs : Int) = t.unixSec + t.offset + 9223372028715321600 := by
  simp only [Time.abs, unixToAbsolute, Int.reducePow, Int.reduceAdd]
  omega

theorem parseRFC3339_Format (t : Time) (hlo : -62167219200 ≤ t.unixSec + t.offset)
    (hhi : t.unixSec + t.offset < 253402300800) (h60 : t.offset % 60 = 0)
    (ho1 : -86400 < t.offset) (ho2 : t.offset < 86400) :
    parseRFC3339 t.FormatRFC3339 =
      some { unixSec := t.unixSec, nsec := 0, offset := t.offset } := by
  have habs := Time_abs_eq t hlo hhi
  have hb1 : 9223371966548102400 ≤ t.abs := by omega
  have hb2 : t.abs < 9223372282117622400 := by omega
  obtain ⟨y, hy, hy2, hyd, hdays⟩ := absYearDay_spec t.abs hb1 hb2
  have hleap : isLeap (absYearDay t.abs).1 = leapYear y := by rw [hy, isLeap_natCast]
  have hn1 : (absYearDay t.abs).2 < 366 := by omega
  have hn2 : (absYearDay t.abs).2 < 365 ∨ leapYear y = true := by
    rcases hyd with h | h
    · exact Or.inl h
    · exact Or.inr h.1
  obtain ⟨m1, m2, d1, d2, d3, hsum⟩ := monthDay_spec (leapYear y) (absYearDay t.abs).2 hn1 hn2
  obtain ⟨c1, c2, c3, csum⟩ := absClock_spec t.abs
  have hfmt : t.FormatRFC3339 = String.mk ([digitChar (y / 1000), digitChar (y / 100 % 10),
      digitChar (y / 10 % 10), digitChar (y % 10), '-',
      digitChar ((monthDay (leapYear y) (absYearDay t.abs).2).1 / 10),
      digitChar ((monthDay (leapYear y) (absYearDay t.abs).2).1 % 10), '-',
      digitChar ((monthDay (leapYear y) (absYearDay t.abs).2).2 / 10),
      digitChar ((monthDay (leapYear y) (absYearDay t.abs).2).2 % 10), 'T',
      digitChar ((absClock t.abs).1 / 10), digitChar ((absClock t.abs).1 % 10), ':',
      digitChar ((absClock t.abs).2.1 / 10), digitChar ((absClock t.abs).2.1 % 10), ':',
      digitChar ((absClock t.abs).2.2 / 10), digitChar ((absClock t.abs).2.2 % 10)] ++
      formatZone t.offset) := by
    simp only [Time.FormatRFC3339, absDate, hy, isLeap_natCast]
    rw [appendInt_four y (by omega), appendInt_two _ (by omega), appendInt_two _ (by omega),
      appendInt_two _ (by omega), appendInt_two _ (by omega), appendInt_two _ (by omega)]
    simp only [List.cons_append, List.nil_append, List.append_assoc]
  rw [hfmt, parseRFC3339_fields y _ _ _ _ _ t.offset (formatZone t.offset) hy2 m1 m2 d1 d2 d3 c1 c2
    c3 (parseZone_formatZone t.offset h60 ho1 ho2) (parseFraction_formatZone t.offset)]
  have hu : daysFromCivil y (monthDay (leapYear y) (absYearDay t.abs).2).1
      (monthDay (leapYear y) (absYearDay t.abs).2).2 * 86400 +
      (((absClock t.abs).1 * 3600 + (absClock t.abs).2.1 * 60 + (absClock t.abs).2.2 : Nat) : Int) -
      t.offset = t.unixSec := by
    rw [csum]
    simp only [daysFromCivil]
    omega
  rw [hu]

theorem hexDigit_upperhex : ∀ n : Nat, n < 16 → hexDigit (upperhex n) = some n := by
  decide

theorem unescapeBytes_escapeByte (b : Nat) (hb : b < 256) (r : List Char) :
    unescapeBytes (escapeByte b ++ r) = (unescapeBytes r).map (fun l => b :: l) := by
  have h1 := hexDigit_upperhex (b / 16) (by omega)
  have h2 := hexDigit_upperhex (b % 16) (by omega)
  have e : b / 16 * 16 + b % 16 = b := by omega
  cases hr : unescapeBytes r <;>
    simp [escapeByte, unescapeBytes, h1, h2, hr, e]

theorem unescapeBytes_escapeBytes (bs : List UInt8) (r : List Char) :
    unescapeBytes (bs.flatMap (fun b => escapeByte b.toNat) ++ r) =
      (unescapeBytes r).map (fun l => bs.map (fun b => b.toNat) ++ l) := by
  induction bs with
  | nil => simp
  | cons b bs ih =>
    have hb : b.toNat < 256 := b.toNat_lt
    simp only [List.flatMap_cons, List.append_assoc, List.map_cons, List.cons_append]
    rw [unescapeBytes_escapeByte _ hb, ih]
    cases unescapeBytes r <;> simp

theorem unescapeBytes_plain (c : Char) (r : List Char) (h1 : c ≠ '%') (h2 : c ≠ '+') :
    unescapeBytes (c :: r) =
      (unescapeBytes r).map
        (fun l => (String.utf8EncodeChar c).map (fun b => b.toNat) ++ l) := by
  conv_lhs => unfold unescapeBytes
  split <;> simp_all

theorem unescapeBytes_escapeChar (c : Char) (r : List Char) :
    unescapeBytes (escapeChar c ++ r) =
      (unescapeBytes r).map
        (fun l => (String.utf8EncodeChar c).map (fun b => b.toNat) ++ l) := by
  unfold escapeChar
  split
  · rename_i h
    subst h
    simp only [List.cons_append, List.nil_append, unescapeBytes]
    have : (String.utf8EncodeChar ' ').map (fun b => b.toNat) = [32] := by decide
    simp [this]
  · split
    · exact unescapeBytes_escapeBytes _ r
    · rename_i hs he
      have h1 : c ≠ '%' := by
        intro e
        subst e
        exact he (by decide)
      have h2 : c ≠ '+' := by
        intro e
        subst e
        exact he (by decide)
      simpa using unescapeBytes_plain c r h1 h2

theorem QueryUnescape_QueryEscape (s : String) :
    QueryUnescape (QueryEscape s) = some (utf8Bytes s) := by
  unfold QueryUnescape QueryEscape utf8Bytes
  simp only
  induction s.data with
  | nil => rfl
  | cons c cs ih =>
    simp only [List.flatMap_cons]
    rw [unescapeBytes_escapeChar, ih]
    simp

/-- Claim C4, as the code has it: for a timestamp whose local date lies in the
years 0000 to 9999 and whose zone offset is a whole number of minutes of less
than a day, undoing the query encoding of the value that `GetScheduleUsers`
places in the query gives back the bytes of the RFC 3339 text, and reading that
text gives the instant of the timestamp without its fraction of a second (the
same instant when the timestamp has no fraction), with the same zone offset. -/
theorem timestamp_round_trip (t : Time) (hlo : -62167219200 ≤ t.unixSec + t.offset)
    (hhi : t.unixSec + t.offset < 253402300800) (h60 : t.offset % 60 = 0)
    (ho1 : -86400 < t.offset) (ho2 : t.offset < 86400) :
    QueryUnescape (QueryEscape t.FormatRFC3339) = some (utf8Bytes t.FormatRFC3339) ∧
      parseRFC3339 t.FormatRFC3339 =
        some { unixSec := t.unixSec, nsec := 0, offset := t.offset } :=
  ⟨QueryUnescape_QueryEscape _, parseRFC3339_Format t hlo hhi h60 ho1 ho2⟩

/-- Claim C4 (amended) at 2020-01-02T04:04:05+01:00. -/
theorem timestamp_round_trip_witness :
    QueryUnescape (QueryEscape (Time.mk 1577934245 0 3600).FormatRFC3339) =
        some (utf8Bytes (Time.mk 1577934245 0 3600).FormatRFC3339) ∧
      parseRFC3339 (Time.mk 1577934245 0 3600).FormatRFC3339 =
        some { unixSec := 1577934245, nsec := 0, offset := 3600 } :=
  timestamp_round_trip (Time.mk 1577934245 0 3600) (by decide) (by decide) (by decide)
    (by decide) (by decide)

/-- Claim C4 as stated fails: the timestamp 2020-01-02T03:04:05.5Z is written
without its half second, so reading the text gives another instant; a zone
offset with seconds (here 19 minutes 32 seconds) is written without its seconds,
and the text denotes an instant 32 seconds later; and the first second of year
10000 is written with a year of five digits, which is no RFC 3339 date-time. -/
theorem timestamp_not_round_trip :
    (Time.mk 1577934245 500000000 0).FormatRFC3339 = "2020-01-02T03:04:05Z" ∧
      parseRFC3339 (Time.mk 1577934245 500000000 0).FormatRFC3339 =
        some { unixSec := 1577934245, nsec := 0, offset := 0 } ∧
      (parseRFC3339 (Time.mk 1577934245 500000000 0).FormatRFC3339).map
          (fun r => (r.unixSec, r.nsec)) ≠ some (1577934245, 500000000) ∧
      (Time.mk 0 0 1172).FormatRFC3339 = "1970-01-01T00:19:32+00:19" ∧
      (parseRFC3339 (Time.mk 0 0 1172).FormatRFC3339).map (fun r => (r.unixSec, r.nsec)) =
        some (32, 0) ∧
      (Time.mk 253402300800 0 0).FormatRFC3339 = "10000-01-01T00:00:00Z" ∧
      parseRFC3339 (Time.mk 253402300800 0 0).FormatRFC3339 = none := by
  decide!

end pagerduty
